import Mathlib

/-!
Verification development for the YAKEEN voice-assistant webapp.

The n8n call client (`js/n8n.js`: `N8nClient` together with the `Utils`
helpers) and the one-shot/continuous voice controllers (`js/voice.js`:
`VoiceProcessor`) are embedded shallowly: JSON bodies become an inductive
`JsonValue`, JavaScript truthiness and property access are made explicit,
fallible paths return `Except`, and the stateful controller becomes explicit
state passing over a record `VState` plus an event log.
-/

namespace VoiceAssistant

/-- JSON values as produced by `response.json()` in the browser. -/
inductive JsonValue where
  | str (s : String)
  | num (n : Int)
  | bool (b : Bool)
  | null
  | arr (elems : List JsonValue)
  | obj (fields : List (String × JsonValue))

/-- Whitespace characters recognised by JavaScript's `\s`, `trim` and
`split(/\s+/)` (the ASCII ones; the exotic unicode spaces are irrelevant to
the repository's string handling). -/
def isJsWhitespace (c : Char) : Bool :=
  c = ' ' || c = '\t' || c = '\n' || c = '\r' || c = Char.ofNat 11 || c = Char.ofNat 12

/-- JavaScript `String.prototype.trim` on the character list. -/
def trimChars (l : List Char) : List Char :=
  ((l.dropWhile isJsWhitespace).reverse.dropWhile isJsWhitespace).reverse

/-- JavaScript `text.trim()`. -/
def jsTrim (s : String) : String := String.mk (trimChars s.toList)

/-- One step of `.replace(/\s+/g, ' ')`: every whitespace character becomes a
plain space. -/
def wsToSpace (c : Char) : Char := if isJsWhitespace c then ' ' else c

/-- Collapse runs of spaces to a single space (the run-collapsing part of
`.replace(/\s+/g, ' ')`, applied after `wsToSpace`). -/
def squeezeSpaces : List Char → List Char
  | [] => []
  | [c] => [c]
  | a :: b :: rest =>
    if a = ' ' && b = ' ' then squeezeSpaces (b :: rest)
    else a :: squeezeSpaces (b :: rest)

/-- `Utils.sanitizeForSpeech` (n8n.js bundle): strip `<`/`>`, collapse all
whitespace runs to one space (which also replaces the newlines), trim. -/
def sanitizeForSpeech (s : String) : String :=
  String.mk (trimChars (squeezeSpaces
    ((s.toList.filter (fun c => c ≠ '<' && c ≠ '>')).map wsToSpace)))

/-- JSON string escaping used by `JSON.stringify` (the escapes that can occur
in this repository's data). -/
def escapeChar (c : Char) : List Char :=
  if c = '"' then ['\\', '"']
  else if c = '\\' then ['\\', '\\']
  else if c = '\n' then ['\\', 'n']
  else if c = '\r' then ['\\', 'r']
  else if c = '\t' then ['\\', 't']
  else [c]

/-- Quoted, escaped JSON representation of a string. -/
def escapeString (s : String) : String :=
  String.mk ('"' :: ((s.toList.map escapeChar).flatten ++ ['"']))

mutual

/-- `JSON.stringify` on parsed JSON values. -/
def stringify : JsonValue → String
  | .str s => escapeString s
  | .num n => toString n
  | .bool b => if b then "true" else "false"
  | .null => "null"
  | .arr es => "[" ++ stringifyElems es ++ "]"
  | .obj fs => "\x7b" ++ stringifyFields fs ++ "\x7d"

/-- Comma-separated stringification of array elements. -/
def stringifyElems : List JsonValue → String
  | [] => ""
  | [v] => stringify v
  | v :: rest => stringify v ++ "," ++ stringifyElems rest

/-- Comma-separated stringification of object fields. -/
def stringifyFields : List (String × JsonValue) → String
  | [] => ""
  | [(k, v)] => escapeString k ++ ":" ++ stringify v
  | (k, v) :: rest => escapeString k ++ ":" ++ stringify v ++ "," ++ stringifyFields rest

end

/-- Field lookup in a JSON object; on duplicate keys the last occurrence wins,
as in `JSON.parse`. -/
def lookupField : List (String × JsonValue) → String → Option JsonValue
  | [], _ => none
  | (k, v) :: rest, key =>
    match lookupField rest key with
    | some w => some w
    | none => if k = key then some v else none

/-- JavaScript property access `v[k]` on a parsed JSON value: it throws a
TypeError on `null`, yields the field on objects, and is `undefined` (`none`)
on the other values (strings, numbers, booleans, arrays carry no own fields
named by this code). -/
def jsGet : JsonValue → String → Except Unit (Option JsonValue)
  | .null, _ => .error ()
  | .obj fs, k => .ok (lookupField fs k)
  | _, _ => .ok none

/-- JavaScript truthiness of a JSON value. -/
def truthy : JsonValue → Bool
  | .str s => s ≠ ""
  | .num n => n ≠ 0
  | .bool b => b
  | .null => false
  | .arr _ => true
  | .obj _ => true

/-- Truthiness of a possibly-`undefined` value. -/
def truthyOpt : Option JsonValue → Bool
  | none => false
  | some v => truthy v

/-- The response-text extraction chain of `N8nClient._processResponse`
(n8n.js:118-134): string body first, then the truthiness-guarded `text`,
`response`, `message`, `output` fields, then the first array element's
`output`, else the JSON-stringified body. `Except Unit` carries the
TypeError raised by property access on `null`. -/
def extractResponseText (data : JsonValue) : Except Unit JsonValue :=
  match data with
  | .str _ => .ok data
  | _ => do
    let t ← jsGet data "text"
    if truthyOpt t then .ok (t.getD .null) else
    let r ← jsGet data "response"
    if truthyOpt r then .ok (r.getD .null) else
    let m ← jsGet data "message"
    if truthyOpt m then .ok (m.getD .null) else
    let o ← jsGet data "output"
    if truthyOpt o then .ok (o.getD .null) else
    match data with
    | .arr (first :: _) => do
      let fo ← jsGet first "output"
      if truthyOpt fo then .ok (fo.getD .null) else .ok (.str (stringify data))
    | _ => .ok (.str (stringify data))

/-- The normalized reply `{ text, raw, timestamp }` of `_processResponse`
(the timestamp field is ambient clock output and is not modelled). -/
structure NormalizedReply where
  text : String
  raw : JsonValue

/-- `N8nClient._processResponse` on an already-parsed JSON body: a truthy
`error` field throws, the extracted value is sanitized for speech (property
access on `null` and `.replace` on a non-string both throw), and every throw
is caught and rethrown as the uniform failure message. -/
def processResponse (data : JsonValue) : Except String NormalizedReply :=
  let inner : Except Unit String := do
    let e ← jsGet data "error"
    if truthyOpt e then .error () else
    let rt ← extractResponseText data
    match rt with
    | .str s => .ok (sanitizeForSpeech s)
    | _ => .error ()
  match inner with
  | .ok t => .ok ⟨t, data⟩
  | .error _ => .error "Failed to process response from n8n"

/-- Whether the parsed body carries a truthy `error` field (the n8n.js:114
check, `false` when the access itself would throw). -/
def errorFieldTruthy (data : JsonValue) : Bool :=
  match jsGet data "error" with
  | .ok v => truthyOpt v
  | .error _ => false

/-- Definition following the spec sentence for C1 read literally: "first
PRESENT field wins" — a string body is used directly, otherwise the first of
`text`, `response`, `message`, `output` that is present in the object wins
regardless of its value, otherwise a non-empty list's first element's present
`output` field, otherwise the JSON-stringified body. -/
def fieldOf : JsonValue → String → Option JsonValue
  | .obj fs, k => lookupField fs k
  | _, _ => none

/-- Spec-worded extraction with literal presence (see `fieldOf`). -/
def specFirstPresentExtract (data : JsonValue) : JsonValue :=
  match data with
  | .str _ => data
  | _ =>
    match fieldOf data "text" with
    | some v => v
    | none =>
      match fieldOf data "response" with
      | some v => v
      | none =>
        match fieldOf data "message" with
        | some v => v
        | none =>
          match fieldOf data "output" with
          | some v => v
          | none =>
            match data with
            | .arr (first :: _) =>
              match fieldOf first "output" with
              | some v => v
              | none => .str (stringify data)
            | _ => .str (stringify data)

/-- The five candidate reads of the amended precedence list, in order:
`text`, `response`, `message`, `output`, first array element's `output`. -/
def precedenceCandidates (data : JsonValue) : List (Except Unit (Option JsonValue)) :=
  [jsGet data "text", jsGet data "response", jsGet data "message", jsGet data "output",
   match data with
   | .arr (first :: _) => jsGet first "output"
   | _ => .ok none]

/-- First candidate whose value is truthy, propagating a thrown access. -/
def firstTruthy : List (Except Unit (Option JsonValue)) → Except Unit (Option JsonValue)
  | [] => .ok none
  | c :: rest => do
    let v ← c
    if truthyOpt v then .ok v else firstTruthy rest

/-- Definition following the AMENDED spec sentence for C1: a string body is
used directly; otherwise the first present AND truthy field in the precedence
list wins (a present but falsy field — empty string, 0, false, null — is
skipped); otherwise the JSON-stringified body is the fallback. -/
def specTruthyExtract (data : JsonValue) : Except Unit JsonValue :=
  match data with
  | .str _ => .ok data
  | _ => do
    let w ← firstTruthy (precedenceCandidates data)
    match w with
    | some v => .ok v
    | none => .ok (.str (stringify data))

/-- Mutable configuration of `N8nClient` (n8n.js:6-12). -/
structure N8nClient where
  baseUrl : String
  timeout : Nat
  retryAttempts : Nat
  retryDelay : Nat

/-- The constructor defaults of `N8nClient`: no URL, 30 s timeout, 3 retry
attempts, 1000 ms base retry delay. -/
def defaultClient : N8nClient :=
  ⟨"", 30000, 3, 1000⟩

/-- What the underlying `fetch` of one attempt did: delivered a response,
was aborted by the timeout controller, or failed at the network layer. -/
inductive FetchResult where
  | response (status : Nat) (statusText : String) (isJson : Bool)
      (body : JsonValue) (rawText : String)
  | aborted
  | networkFailure (msg : String)

/-- `response.ok`: status in the 2xx range. -/
def statusOk (status : Nat) : Bool := 200 ≤ status && status < 300

/-- `N8nClient._makeRequest` (n8n.js:60-96): an abort surfaces as
`Request timeout`, a non-2xx response is rejected with the HTTP error before
any body parsing, and a 2xx response is returned unparsed. -/
def makeRequest (f : FetchResult) : Except String FetchResult :=
  match f with
  | .aborted => .error "Request timeout"
  | .networkFailure msg => .error msg
  | .response status statusText _ _ _ =>
    if statusOk status then .ok f
    else .error ("HTTP " ++ toString status ++ ": " ++ statusText)

/-- Body parsing in `_processResponse` (n8n.js:104-111): JSON content type is
parsed, any other content type is wrapped as `{ text: rawText }`. -/
def parseBody : FetchResult → JsonValue
  | .response _ _ true body _ => body
  | .response _ _ false _ rawText => .obj [("text", .str rawText)]
  | _ => .null

/-- `N8nClient.sendVoiceInput` (n8n.js:25-55) for one attempt whose fetch
behaves as `f`. The second component counts HTTP requests issued, so the
guard failures are visibly request-free. -/
def sendVoiceInput (c : N8nClient) (text : String) (f : FetchResult) :
    Except String NormalizedReply × Nat :=
  if c.baseUrl = "" then (.error "n8n URL not configured", 0)
  else if jsTrim text = "" then (.error "No text provided", 0)
  else
    match makeRequest f with
    | .error e => (.error e, 1)
    | .ok resp => (processResponse (parseBody resp), 1)

/-- `Utils.retry` (n8n.js bundle, Utils): `fn` is indexed by the 1-based
attempt number; the result is the settled outcome (`none` only when
`maxAttempts = 0`, where the JS loop body never runs), the number of
invocations of `fn`, and the list of inter-attempt delays in ms. Recursion is
on the remaining attempt budget. -/
def retryAux {α : Type} (fn : Nat → Except String α) (baseDelay : Nat) :
    Nat → Nat → Option (Except String α) × Nat × List Nat
  | _, 0 => (none, 0, [])
  | attempt, remaining + 1 =>
    match fn attempt with
    | .ok a => (some (.ok a), 1, [])
    | .error e =>
      if remaining = 0 then (some (.error e), 1, [])
      else
        let d := baseDelay * 2 ^ (attempt - 1)
        let rest := retryAux fn baseDelay (attempt + 1) remaining
        (rest.1, rest.2.1 + 1, d :: rest.2.2)

/-- `Utils.retry fn maxAttempts baseDelay` starting at attempt 1. -/
def retry {α : Type} (fn : Nat → Except String α) (maxAttempts baseDelay : Nat) :
    Option (Except String α) × Nat × List Nat :=
  retryAux fn baseDelay 1 maxAttempts

/-- `N8nClient.sendWithRetry` (n8n.js:190-196): retries `sendVoiceInput` with
the client's configured attempt count and base delay; `fetches i` is what the
i-th attempt's fetch does. -/
def sendWithRetry (c : N8nClient) (text : String) (fetches : Nat → FetchResult) :
    Option (Except String NormalizedReply) × Nat × List Nat :=
  retry (fun i => (sendVoiceInput c text (fetches i)).1) c.retryAttempts c.retryDelay

/-- The update object accepted by `N8nClient.updateConfig`; a `none` field is
absent from the object. -/
structure ConfigUpdate where
  url : Option String
  timeout : Option Nat
  retryAttempts : Option Nat
  retryDelay : Option Nat

/-- JavaScript `url.replace(/\/$/, '')`: removes one trailing slash. -/
def stripTrailingSlash (url : String) : String :=
  match url.toList.reverse with
  | '/' :: rest => String.mk rest.reverse
  | _ => url

/-- `N8nClient.updateConfig` (n8n.js:213-228): `url`, `timeout` and
`retryDelay` are applied only when truthy (a present 0 or empty string is
silently ignored), while `retryAttempts` is applied whenever it is present. -/
def updateConfig (c : N8nClient) (cfg : ConfigUpdate) : N8nClient :=
  let c1 :=
    match cfg.url with
    | some u => if u ≠ "" then { c with baseUrl := stripTrailingSlash u } else c
    | none => c
  let c2 :=
    match cfg.timeout with
    | some t => if t ≠ 0 then { c1 with timeout := t } else c1
    | none => c1
  let c3 :=
    match cfg.retryAttempts with
    | some r => { c2 with retryAttempts := r }
    | none => c2
  match cfg.retryDelay with
  | some d => if d ≠ 0 then { c3 with retryDelay := d } else c3
  | none => c3

/-- State of the browser speech-recognition engine itself: per the Web Speech
API, `stop()` on an engine that is not running is ignored. -/
inductive EngState where
  | inactive
  | running
  | stopping
deriving DecidableEq

/-- The mutable fields of `VoiceProcessor` (one-shot variant, voice.js:431-462)
that the verified operations touch, together with the capture engine's own
state and the number of Exchanges in flight (`sendWithRetry` calls awaited but
not yet settled). -/
structure VState where
  isListening : Bool
  hasRecognition : Bool
  engine : EngState
  silenceTimerArmed : Bool
  isSpeaking : Bool
  synthSpeaking : Bool
  hasUtterance : Bool
  pending : Nat

/-- Observable side effects of the controller operations. -/
inductive VEvent where
  | engineStopRequested
  | timerCleared
  | synthCancelled
  | statusChanged (st : String)
  | netSend (text : String)
  | spoke (text : String)
  | errorSurfaced (msg : String)
  | resultDelivered (text : String)
deriving DecidableEq

/-- The capture engine's reaction to `recognition.stop()`: only a running
engine transitions (to `stopping`, its end event arriving later); the call is
ignored otherwise. -/
def engineStop : EngState → EngState × List VEvent
  | .running => (.stopping, [.engineStopRequested])
  | e => (e, [])

/-- `VoiceProcessor.stopListening` (voice.js:695-707, identical in the
continuous variant at 225-237): early return unless listening with an engine,
otherwise stop the engine and clear the silence timer if armed. -/
def stopListening (s : VState) : VState × List VEvent :=
  if !s.isListening || !s.hasRecognition then (s, [])
  else
    let es := engineStop s.engine
    if s.silenceTimerArmed then
      ({ s with engine := es.1, silenceTimerArmed := false }, es.2 ++ [.timerCleared])
    else
      ({ s with engine := es.1 }, es.2)

/-- `VoiceProcessor.stopSpeaking` (voice.js:759-765): cancel the synthesis
engine only if it is speaking, then unconditionally reset the speaking flag
and drop the current utterance. -/
def stopSpeaking (s : VState) : VState × List VEvent :=
  let evs := if s.synthSpeaking then [VEvent.synthCancelled] else []
  ({ s with synthSpeaking := false, isSpeaking := false, hasUtterance := false }, evs)

/-- `minSpeechLength` (voice.js:446): minimum characters for valid speech. -/
def minSpeechLength : Nat := 3

/-- Split a character list on whitespace, accumulating the current word
reversed; models `split(/\s+/)` up to the empty pieces, which the caller
filters away exactly as the source does. -/
def splitWsAux : List Char → List Char → List (List Char)
  | [], acc => [acc.reverse]
  | c :: rest, acc =>
    if isJsWhitespace c then acc.reverse :: splitWsAux rest []
    else splitWsAux rest (c :: acc)

/-- `cleanText.split(/\s+/).filter(word => word.length > 0).length`. -/
def wordCount (s : String) : Nat :=
  ((splitWsAux s.toList []).filter (fun w => w ≠ [])).length

/-- Lower-case a string (ASCII, as the `/i` regex flag does here). -/
def lowerStr (s : String) : String := String.mk (s.toList.map Char.toLower)

/-- Noise pattern `/^(uh|um|ah|eh|mm|hmm)$/i`. -/
def isInterjection (t : String) : Bool :=
  (["uh", "um", "ah", "eh", "mm", "hmm"] : List String).contains (lowerStr t)

/-- Noise pattern `/^[.,;:!?]+$/`. -/
def isPunctOnly (t : String) : Bool :=
  t ≠ "" && t.toList.all (fun c => (['.', ',', ';', ':', '!', '?'] : List Char).contains c)

/-- Noise pattern `/^\s*$/` (also matches the empty string). -/
def isWsOnly (t : String) : Bool := t.toList.all isJsWhitespace

/-- Noise pattern `/^[a-z]$/i`. -/
def isSingleLetter (t : String) : Bool :=
  match t.toList with
  | [c] => 'a' ≤ c.toLower && c.toLower ≤ 'z'
  | _ => false

/-- The noise-pattern loop of `isValidSpeech` (voice.js:616-628). -/
def matchesNoisePattern (t : String) : Bool :=
  isInterjection t || isPunctOnly t || isWsOnly t || isSingleLetter t

/-- `VoiceProcessor.isValidSpeech` (voice.js:597-631): non-empty string,
trimmed length at least `minSpeechLength`, at least one word, and no noise
pattern. -/
def isValidSpeech (text : String) : Bool :=
  if text = "" then false
  else
    let cleanText := jsTrim text
    if cleanText.length < minSpeechLength then false
    else if wordCount cleanText < 1 then false
    else if matchesNoisePattern cleanText then false
    else true

/-- An awaited run of `VoiceProcessor.speak` (voice.js:712-754) through its
whole utterance lifecycle: cancel any ongoing speech, emit the start/end
status transitions, and finish with the speaking flag down but the utterance
reference still set (`onend` does not clear it). -/
def speakRun (s : VState) (text : String) : VState × List VEvent :=
  if jsTrim text = "" then (s, [])
  else
    let ss := stopSpeaking s
    ({ ss.1 with hasUtterance := true, isSpeaking := false, synthSpeaking := false },
      ss.2 ++ [.statusChanged "speaking", .spoke text, .statusChanged "ready"])

/-- `VoiceProcessor.processFinalResult` (one-shot variant, voice.js:636-672),
run to completion; `result` is the settled outcome of
`n8nClient.sendWithRetry` on the cleaned text. Capture is stopped first, a
rejected final only resets the status to `ready`, an accepted final goes
through `processing`, the network send, the spoken reply or apology, and a
final `ready`. -/
def processFinalResult (s : VState) (text : String)
    (result : Except String NormalizedReply) : VState × List VEvent :=
  let sl := stopListening s
  if !isValidSpeech text then
    (sl.1, sl.2 ++ [.statusChanged "ready"])
  else
    let cleanText := jsTrim text
    let evs2 := sl.2 ++ [.statusChanged "processing", .netSend cleanText]
    match result with
    | .ok r =>
      if r.text ≠ "" then
        let sp := speakRun sl.1 r.text
        (sp.1, evs2 ++ sp.2 ++ [.resultDelivered cleanText, .statusChanged "ready"])
      else
        let sp := speakRun sl.1 "I received your message but got no response."
        (sp.1, evs2 ++ sp.2 ++ [.resultDelivered cleanText, .statusChanged "ready"])
    | .error e =>
      let sp := speakRun sl.1 "Sorry, I encountered an error processing your request."
      (sp.1, evs2 ++ sp.2 ++ [.errorSurfaced e, .statusChanged "ready"])

/-- The `onerror` handler of the continuous variant (voice.js:125-137):
permission and network errors get dedicated messages and EVERY other error,
including `no-speech`, is surfaced generically; then capture is stopped. -/
def recErrorContinuous (s : VState) (err : String) : VState × List VEvent :=
  let msgs : List VEvent :=
    if err = "not-allowed" || err = "service-not-allowed" then
      [.errorSurfaced "Microphone permission denied. Please enable microphone access."]
    else if err = "network" then
      [.errorSurfaced "Network error. Please check your internet connection."]
    else
      [.errorSurfaced ("Speech recognition error: " ++ err)]
  let sl := stopListening s
  (sl.1, msgs ++ sl.2)

/-- The `onerror` handler of the one-shot variant (voice.js:552-564): as the
continuous one, except that `no-speech` is NOT surfaced — it only ends the
listening attempt. -/
def recErrorOneShot (s : VState) (err : String) : VState × List VEvent :=
  let msgs : List VEvent :=
    if err = "not-allowed" || err = "service-not-allowed" then
      [.errorSurfaced "Microphone permission denied. Please enable microphone access and refresh the page."]
    else if err = "network" then
      [.errorSurfaced "Network error. Please check your internet connection."]
    else if err ≠ "no-speech" then
      [.errorSurfaced ("Speech recognition error: " ++ err)]
    else []
  let sl := stopListening s
  (sl.1, msgs ++ sl.2)

/-- The browser events that drive the one-shot turn controller. -/
inductive TurnEvent where
  | userStart
  | engineStarted
  | finalTranscript (text : String)
  | engineEnded
  | exchangeResolved

/-- One dispatch of a browser event against the one-shot controller
(voice.js): `userStart` is `startListening` (voice.js:677-690, refused while
`isListening`); `engineStarted` is `onstart` (voice.js:500); a final
transcript runs `processFinalResult` up to its await point (stop capture,
and on an accepted final one more Exchange goes in flight); `engineEnded` is
`onend` (voice.js:566-578); `exchangeResolved` settles one Exchange. -/
def stepTurn (s : VState) : TurnEvent → VState
  | .userStart =>
    if s.isListening || !s.hasRecognition then s
    else { s with engine := .running }
  | .engineStarted => { s with isListening := true }
  | .finalTranscript text =>
    if s.isListening then
      let s1 := (stopListening s).1
      if isValidSpeech text then { s1 with pending := s1.pending + 1 }
      else s1
    else s
  | .engineEnded =>
    { s with isListening := false, silenceTimerArmed := false, engine := .inactive }
  | .exchangeResolved => { s with pending := s.pending - 1 }

/-- Run a sequence of browser events from a state. -/
def runTurn (s : VState) (evs : List TurnEvent) : VState :=
  evs.foldl stepTurn s

/-- The controller's state at page load: engine initialised, idle, nothing
pending. -/
def initialVState : VState :=
  ⟨false, true, .inactive, false, false, false, false, 0⟩

/-- A state in the middle of a listening attempt: capture running, silence
timer armed. -/
def listenState : VState :=
  ⟨true, true, .running, true, false, false, false, 0⟩

/-- Lower-cased first `n` characters of a string, the prefix a case-insensitive
echo comparison would use. -/
def firstCharsLower (n : Nat) (s : String) : String :=
  String.mk ((s.toList.take n).map Char.toLower)

/- ### Helper lemmas -/

theorem bindOk {α β γ : Type} (a : α) (f : α → Except γ β) :
    (Except.ok a : Except γ α) >>= f = f a := rfl

theorem bindErr {α β γ : Type} (e : γ) (f : α → Except γ β) :
    (Except.error e : Except γ α) >>= f = Except.error e := rfl

theorem stopListening_events (s : VState) :
    (stopListening s).2 = [] ∨ (stopListening s).2 = [.engineStopRequested]
    ∨ (stopListening s).2 = [.timerCleared]
    ∨ (stopListening s).2 = [.engineStopRequested, .timerCleared] := by
  obtain ⟨l, hr, eng, st, sp, syn, hu, p⟩ := s
  cases l <;> cases hr <;> cases eng <;> cases st <;>
    simp [stopListening, engineStop]

theorem stopListening_timer (s : VState) (h1 : s.isListening = true)
    (h2 : s.hasRecognition = true) :
    (stopListening s).1.silenceTimerArmed = false := by
  obtain ⟨l, hr, eng, st, sp, syn, hu, p⟩ := s
  simp at h1 h2
  subst h1; subst h2
  cases st <;> simp [stopListening, engineStop]

theorem stopListening_pending (s : VState) :
    (stopListening s).1.pending = s.pending := by
  obtain ⟨l, hr, eng, st, sp, syn, hu, p⟩ := s
  cases l <;> cases hr <;> cases eng <;> cases st <;>
    simp [stopListening, engineStop]

theorem stopListening_engineStopMem (s : VState) (h1 : s.isListening = true)
    (h2 : s.hasRecognition = true) (h3 : s.engine = .running) :
    VEvent.engineStopRequested ∈ (stopListening s).2 := by
  obtain ⟨l, hr, eng, st, sp, syn, hu, p⟩ := s
  simp at h1 h2 h3
  subst h1; subst h2; subst h3
  cases st <;> simp [stopListening, engineStop]

theorem speakRun_timer (s : VState) (m : String) :
    (speakRun s m).1.silenceTimerArmed = s.silenceTimerArmed := by
  unfold speakRun
  split
  · rfl
  · simp [stopSpeaking]

theorem splitWsAux_has_word :
    ∀ (l acc : List Char), (acc ≠ [] ∨ ∃ c ∈ l, isJsWhitespace c = false) →
    ∃ w ∈ splitWsAux l acc, w ≠ [] := by
  intro l
  induction l with
  | nil =>
    intro acc h
    rcases h with h | ⟨c, hc, _⟩
    · exact ⟨acc.reverse, by simp [splitWsAux], by simp [h]⟩
    · simp at hc
  | cons c rest ih =>
    intro acc h
    by_cases hws : isJsWhitespace c
    · by_cases hacc : acc = []
      · subst hacc
        have hex : ∃ x ∈ rest, isJsWhitespace x = false := by
          rcases h with h | ⟨x, hx, hxw⟩
          · exact absurd rfl h
          · rcases List.mem_cons.mp hx with rfl | hmem
            · rw [hws] at hxw; cases hxw
            · exact ⟨x, hmem, hxw⟩
        obtain ⟨w, hw, hwne⟩ := ih [] (Or.inr hex)
        refine ⟨w, ?_, hwne⟩
        simp [splitWsAux, hws]
        exact Or.inr hw
      · refine ⟨acc.reverse, ?_, by simp [hacc]⟩
        simp [splitWsAux, hws]
    · obtain ⟨w, hw, hwne⟩ := ih (c :: acc) (Or.inl (by simp))
      refine ⟨w, ?_, hwne⟩
      simp [splitWsAux, hws]
      exact hw

theorem wordCount_pos (s : String) (h : ∃ c ∈ s.toList, isJsWhitespace c = false) :
    1 ≤ wordCount s := by
  obtain ⟨w, hw, hwne⟩ := splitWsAux_has_word s.toList [] (Or.inr h)
  have hne : (splitWsAux s.toList []).filter (fun w => w ≠ []) ≠ [] := by
    intro hnil
    rw [List.filter_eq_nil_iff] at hnil
    have hw2 := hnil w hw
    simp at hw2
    exact hwne hw2
  have := List.length_pos.mpr hne
  unfold wordCount
  omega

theorem retryAux_all_fail {α : Type} (fn : Nat → Except String α) (d : Nat)
    (err : Nat → String) :
    ∀ remaining attempt, 1 ≤ remaining →
      (∀ i, attempt ≤ i → i < attempt + remaining → fn i = .error (err i)) →
      (retryAux fn d attempt remaining).1 = some (.error (err (attempt + remaining - 1)))
      ∧ (retryAux fn d attempt remaining).2.1 = remaining := by
  intro remaining
  induction remaining with
  | zero => intro attempt h; omega
  | succ r ih =>
    intro attempt _ hfn
    have h1 : fn attempt = .error (err attempt) := hfn attempt le_rfl (by omega)
    by_cases hr : r = 0
    · subst hr
      simp [retryAux, h1]
    · obtain ⟨ha, hb⟩ := ih (attempt + 1) (by omega)
        (fun i hi1 hi2 => hfn i (by omega) (by omega))
      have harith : attempt + 1 + r - 1 = attempt + (r + 1) - 1 := by omega
      rw [harith] at ha
      refine ⟨?_, ?_⟩
      · simp [retryAux, h1, hr, ha]
      · simp [retryAux, h1, hr, hb]

theorem extract_eq_specTruthy (data : JsonValue) :
    extractResponseText data = specTruthyExtract data := by
  cases data with
  | str s => rfl
  | null => rfl
  | num n => rfl
  | bool b => rfl
  | arr es =>
    cases es with
    | nil => rfl
    | cons first rest =>
      simp only [extractResponseText, specTruthyExtract, precedenceCandidates,
        firstTruthy, jsGet, bindOk]
      cases first with
      | obj gs =>
        rcases hO : lookupField gs "output" with _ | vO <;>
        (try simp [truthyOpt, bindOk, jsGet]) <;>
        (first | rfl | ((repeat' split) <;> simp_all [bindOk, truthyOpt]))
      | _ => rfl
  | obj fs =>
    simp only [extractResponseText, specTruthyExtract, precedenceCandidates,
      firstTruthy, jsGet, bindOk]
    rcases hT : lookupField fs "text" with _ | vT <;>
    rcases hR : lookupField fs "response" with _ | vR <;>
    rcases hM : lookupField fs "message" with _ | vM <;>
    rcases hO : lookupField fs "output" with _ | vO <;>
    (try simp [truthyOpt, bindOk]) <;>
    (first | rfl | ((repeat' split) <;> simp_all [bindOk, truthyOpt]))

/- ### Claim theorems -/

/-- C1 (counterexample): the claimed precedence "first PRESENT field wins" is
false on the body `{"text": "", "response": "hi"}`: the `text` field is
present, so the claim demands the normalized reply text `""`, but
`_processResponse` skips the falsy `text` field and returns `"hi"`. -/
theorem C1_counterexample :
    processResponse (.obj [("text", .str ""), ("response", .str "hi")])
      = .ok ⟨"hi", .obj [("text", .str ""), ("response", .str "hi")]⟩
    ∧ specFirstPresentExtract (.obj [("text", .str ""), ("response", .str "hi")])
      = .str ""
    ∧ sanitizeForSpeech "" ≠ "hi" :=
  ⟨rfl, rfl, by decide⟩

/-- C1 (amended): the normalized reply text follows the precedence
string body → `text` → `response` → `message` → `output` → first list
element's `output` → JSON-stringified fallback, where the first present AND
TRUTHY field wins (a present but falsy field is skipped); on such a winner
`s`, processing returns the sanitized `s` with the raw body, provided the
body carries no truthy `error` field. -/
theorem C1_theorem :
    (∀ data : JsonValue, extractResponseText data = specTruthyExtract data)
    ∧ (∀ (data : JsonValue) (eo : Option JsonValue) (s : String),
        jsGet data "error" = .ok eo → truthyOpt eo = false →
        extractResponseText data = .ok (.str s) →
        processResponse data = .ok ⟨sanitizeForSpeech s, data⟩) := by
  constructor
  · exact extract_eq_specTruthy
  · intro data eo s h1 h2 h3
    simp [processResponse, h1, h2, h3, bindOk]

/-- C1 (witness): a concrete run of the amended precedence, on the body
`{"message": "All done"}`. -/
theorem C1_witness :
    processResponse (.obj [("message", .str "All done")])
      = .ok ⟨sanitizeForSpeech "All done", .obj [("message", .str "All done")]⟩ :=
  C1_theorem.2 (.obj [("message", .str "All done")]) none "All done" rfl rfl rfl

/-- C2: `Utils.retry` with `maxAttempts = 3` on an operation failing on the
first two invocations and succeeding on the third returns the success after
exactly 3 invocations, with the doubling delays `[d, 2d]` between attempts,
which are non-decreasing; and on an operation failing on all `m ≥ 1`
invocations the final attempt's failure propagates after exactly `m`
invocations, with no invocation after the final attempt. -/
theorem C2_theorem {α : Type} (fn : Nat → Except String α) (a : α)
    (e₁ e₂ : String) (d : Nat)
    (h1 : fn 1 = .error e₁) (h2 : fn 2 = .error e₂) (h3 : fn 3 = .ok a) :
    (retry fn 3 d = (some (.ok a), 3, [d, 2 * d]) ∧ d ≤ 2 * d)
    ∧ (∀ {β : Type} (g : Nat → Except String β) (err : Nat → String) (m : Nat),
        1 ≤ m → (∀ i, 1 ≤ i → i ≤ m → g i = .error (err i)) →
        (retry g m d).1 = some (.error (err m)) ∧ (retry g m d).2.1 = m) := by
  constructor
  · refine ⟨?_, by omega⟩
    simp [retry, retryAux, h1, h2, h3, Nat.mul_comm]
  · intro β g err m hm hg
    have h := retryAux_all_fail g d err m 1 hm
      (fun i hi1 hi2 => hg i hi1 (by omega))
    rw [show 1 + m - 1 = m by omega] at h
    exact h

/-- C2 (witness): concrete fail-fail-succeed and all-fail runs of
`Utils.retry` at the default base delay. -/
theorem C2_witness :
    retry (fun i => if i < 3 then (.error "fail" : Except String Nat) else .ok 42) 3 1000
      = (some (.ok 42), 3, [1000, 2 * 1000])
    ∧ (retry (fun _ => (.error "down" : Except String Nat)) 3 1000).2.1 = 3 := by
  constructor
  · exact (C2_theorem (fun i => if i < 3 then (.error "fail" : Except String Nat) else .ok 42)
      42 "fail" "fail" 1000 rfl rfl rfl).1.1
  · exact ((C2_theorem (fun i => if i < 3 then (.error "fail" : Except String Nat) else .ok 42)
      42 "fail" "fail" 1000 rfl rfl rfl).2
      (fun _ => (.error "down" : Except String Nat)) (fun _ => "down") 3 (by omega)
      (fun i h1 h2 => rfl)).2

/-- C5: `sendVoiceInput` fails with the unconfigured error when no endpoint
URL is set and with the empty-input error when the text trims to nothing, in
both cases issuing no HTTP request; the default timeout is 30000 ms and an
aborted fetch surfaces as the timeout error; and every non-2xx response is
rejected with the HTTP error for any body whatsoever, i.e. before body
parsing. -/
theorem C5_theorem :
    defaultClient.timeout = 30000
    ∧ (∀ (c : N8nClient) (text : String) (f : FetchResult), c.baseUrl = "" →
        sendVoiceInput c text f = (.error "n8n URL not configured", 0))
    ∧ (∀ (c : N8nClient) (text : String) (f : FetchResult),
        c.baseUrl ≠ "" → jsTrim text = "" →
        sendVoiceInput c text f = (.error "No text provided", 0))
    ∧ (∀ (c : N8nClient) (text : String), c.baseUrl ≠ "" → jsTrim text ≠ "" →
        sendVoiceInput c text .aborted = (.error "Request timeout", 1))
    ∧ (∀ (c : N8nClient) (text : String) (status : Nat) (statusText : String)
        (isJson : Bool) (body : JsonValue) (rawText : String),
        c.baseUrl ≠ "" → jsTrim text ≠ "" → statusOk status = false →
        sendVoiceInput c text (.response status statusText isJson body rawText)
          = (.error ("HTTP " ++ toString status ++ ": " ++ statusText), 1)) := by
  refine ⟨rfl, ?_, ?_, ?_, ?_⟩ <;> intros <;>
    simp_all [sendVoiceInput, makeRequest]

/-- C5 (witness): the four failure modes at concrete inputs. -/
theorem C5_witness :
    sendVoiceInput defaultClient "hi" .aborted
      = (.error "n8n URL not configured", 0)
    ∧ sendVoiceInput ⟨"https://n8n.example", 30000, 3, 1000⟩ "   " .aborted
      = (.error "No text provided", 0)
    ∧ sendVoiceInput ⟨"https://n8n.example", 30000, 3, 1000⟩ "hi" .aborted
      = (.error "Request timeout", 1)
    ∧ sendVoiceInput ⟨"https://n8n.example", 30000, 3, 1000⟩ "hi"
        (.response 500 "Internal Server Error" true (.str "ignored") "")
      = (.error ("HTTP " ++ toString 500 ++ ": " ++ "Internal Server Error"), 1) :=
  ⟨C5_theorem.2.1 defaultClient "hi" .aborted rfl,
   C5_theorem.2.2.1 ⟨"https://n8n.example", 30000, 3, 1000⟩ "   " .aborted
     (by decide) rfl,
   C5_theorem.2.2.2.1 ⟨"https://n8n.example", 30000, 3, 1000⟩ "hi"
     (by decide) (by decide),
   C5_theorem.2.2.2.2 ⟨"https://n8n.example", 30000, 3, 1000⟩ "hi"
     500 "Internal Server Error" true (.str "ignored") ""
     (by decide) (by decide) rfl⟩

/-- C9: a 2xx JSON body with a truthy `error` field makes the whole exchange
fail with the uniform message, whatever else the body contains. -/
theorem C9_theorem (data : JsonValue) (h : errorFieldTruthy data = true) :
    processResponse data = .error "Failed to process response from n8n" := by
  unfold errorFieldTruthy at h
  unfold processResponse
  cases hj : jsGet data "error" with
  | error e => rw [hj] at h; exact absurd h (by simp)
  | ok v =>
    rw [hj] at h
    have h2 : truthyOpt v = true := h
    simp [hj, bindOk, h2]

/-- C9 (witness): the body `{"error": "boom", "text": "hi"}` is rejected
uniformly even though its `text` field would otherwise win the precedence. -/
theorem C9_witness :
    processResponse (.obj [("error", .str "boom"), ("text", .str "hi")])
      = .error "Failed to process response from n8n" :=
  C9_theorem (.obj [("error", .str "boom"), ("text", .str "hi")]) rfl

/-- C10: `updateConfig` with `timeout: 0` or `retryDelay: 0` leaves those
fields at their previous values (the zero fails the truthiness check), while
`retryAttempts: 0` is applied; every field absent from the update object is
unchanged. -/
theorem C10_theorem (c : N8nClient) (cfg : ConfigUpdate) :
    (cfg.timeout = some 0 → (updateConfig c cfg).timeout = c.timeout)
    ∧ (cfg.retryDelay = some 0 → (updateConfig c cfg).retryDelay = c.retryDelay)
    ∧ (cfg.retryAttempts = some 0 → (updateConfig c cfg).retryAttempts = 0)
    ∧ (cfg.url = none → (updateConfig c cfg).baseUrl = c.baseUrl)
    ∧ (cfg.timeout = none → (updateConfig c cfg).timeout = c.timeout)
    ∧ (cfg.retryAttempts = none → (updateConfig c cfg).retryAttempts = c.retryAttempts)
    ∧ (cfg.retryDelay = none → (updateConfig c cfg).retryDelay = c.retryDelay) := by
  obtain ⟨u, t, ra, rd⟩ := cfg
  refine ⟨?_, ?_, ?_, ?_, ?_, ?_, ?_⟩ <;>
    (intro h; simp only at h; subst h) <;>
    simp [updateConfig] <;>
    (repeat' split) <;>
    simp

/-- C10 (witness): a concrete update `{timeout: 0, retryAttempts: 0,
retryDelay: 0}` against the default client. -/
theorem C10_witness :
    (updateConfig defaultClient ⟨none, some 0, some 0, some 0⟩).timeout
      = defaultClient.timeout
    ∧ (updateConfig defaultClient ⟨none, some 0, some 0, some 0⟩).retryDelay
      = defaultClient.retryDelay
    ∧ (updateConfig defaultClient ⟨none, some 0, some 0, some 0⟩).retryAttempts = 0
    ∧ (updateConfig defaultClient ⟨none, some 0, some 0, some 0⟩).baseUrl
      = defaultClient.baseUrl :=
  ⟨(C10_theorem defaultClient ⟨none, some 0, some 0, some 0⟩).1 rfl,
   (C10_theorem defaultClient ⟨none, some 0, some 0, some 0⟩).2.1 rfl,
   (C10_theorem defaultClient ⟨none, some 0, some 0, some 0⟩).2.2.1 rfl,
   (C10_theorem defaultClient ⟨none, some 0, some 0, some 0⟩).2.2.2.1 rfl⟩

/-- C3 (counterexample): the claimed echo suppression is false: with prior
spoken reply "hello there my friend", the utterance "Hello there my friend",
whose first 15 characters match the reply case-insensitively, is ACCEPTED by
`isValidSpeech`, not rejected — the validator performs no comparison with the
prior reply at all. -/
theorem C3_counterexample :
    firstCharsLower 15 "Hello there my friend"
      = firstCharsLower 15 "hello there my friend"
    ∧ isValidSpeech "Hello there my friend" = true := by
  constructor <;> rfl

/-- C3 (amended): the validator has no echo detection: an utterance whose
first 15 characters match the most recent spoken reply case-insensitively is
nevertheless accepted whenever it passes the checks the validator actually
performs (trimmed length at least 3 and no noise pattern). -/
theorem C3_theorem (reply utterance : String)
    (hEcho : firstCharsLower 15 utterance = firstCharsLower 15 reply)
    (hLen : 3 ≤ (jsTrim utterance).length)
    (hNoise : matchesNoisePattern (jsTrim utterance) = false) :
    isValidSpeech utterance = true := by
  have hu : utterance ≠ "" := by
    intro h
    rw [h] at hLen
    simp [jsTrim, trimChars] at hLen
  have hwsOnly : isWsOnly (jsTrim utterance) = false := by
    unfold matchesNoisePattern at hNoise
    rcases Bool.or_eq_false_iff.mp hNoise with ⟨h1, h2⟩
    exact (Bool.or_eq_false_iff.mp h1).2
  have hex : ∃ c ∈ (jsTrim utterance).toList, isJsWhitespace c = false := by
    unfold isWsOnly at hwsOnly
    rcases List.all_eq_false.mp hwsOnly with ⟨c, hc, hcw⟩
    exact ⟨c, hc, by simpa using hcw⟩
  have hwc : 1 ≤ wordCount (jsTrim utterance) := wordCount_pos _ hex
  have h3 : ¬ (jsTrim utterance).length < minSpeechLength := by
    unfold minSpeechLength; omega
  have h4 : ¬ wordCount (jsTrim utterance) < 1 := by omega
  simp [isValidSpeech, hu, h3, h4, hNoise]

/-- C3 (witness): a concrete echo-like utterance that the validator accepts. -/
theorem C3_witness :
    isValidSpeech "Okay sounds good then" = true :=
  C3_theorem "okay sounds good tomorrow" "Okay sounds good then"
    (by decide) (by decide) (by decide)

/-- C4: a final transcript the validator rejects produces exactly the
capture-stop effects plus a return to the `ready` status — in particular no
network send and nothing spoken, so no Exchange is created; the example
utterance "um" and any text whose trimmed length is below 3 are rejected;
and an accepted final emits the `processing` status, sends the trimmed text
to the endpoint, and stops capture (silence timer cleared, engine stop
requested when it was running). -/
theorem C4_theorem :
    (∀ (s : VState) (text : String) (result : Except String NormalizedReply),
        isValidSpeech text = false →
        processFinalResult s text result
          = ((stopListening s).1, (stopListening s).2 ++ [.statusChanged "ready"]))
    ∧ (∀ (s : VState) (text : String) (result : Except String NormalizedReply)
        (t : String), isValidSpeech text = false →
        VEvent.netSend t ∉ (processFinalResult s text result).2
        ∧ VEvent.spoke t ∉ (processFinalResult s text result).2)
    ∧ isValidSpeech "um" = false
    ∧ (∀ text : String, (jsTrim text).length < 3 → isValidSpeech text = false)
    ∧ (∀ (s : VState) (text : String) (result : Except String NormalizedReply),
        isValidSpeech text = true →
        VEvent.statusChanged "processing" ∈ (processFinalResult s text result).2
        ∧ VEvent.netSend (jsTrim text) ∈ (processFinalResult s text result).2
        ∧ (s.isListening = true → s.hasRecognition = true →
            (processFinalResult s text result).1.silenceTimerArmed = false
            ∧ (s.engine = .running →
                VEvent.engineStopRequested ∈ (processFinalResult s text result).2))) := by
  have hrej : ∀ (s : VState) (text : String) (result : Except String NormalizedReply),
      isValidSpeech text = false →
      processFinalResult s text result
        = ((stopListening s).1, (stopListening s).2 ++ [.statusChanged "ready"]) := by
    intro s text result h
    simp [processFinalResult, h]
  refine ⟨hrej, ?_, ?_, ?_, ?_⟩
  · intro s text result t h
    rw [hrej s text result h]
    rcases stopListening_events s with he | he | he | he <;> rw [he] <;> simp
  · rfl
  · intro text h
    by_cases hE : text = ""
    · simp [isValidSpeech, hE]
    · simp [isValidSpeech, hE, minSpeechLength, h]
  · intro s text result h
    unfold processFinalResult
    rw [h]
    simp only [Bool.not_true, Bool.false_eq_true, if_false]
    have core : ∀ (msg : String) (tail : List VEvent),
        VEvent.statusChanged "processing" ∈
          ((stopListening s).2
            ++ [VEvent.statusChanged "processing", VEvent.netSend (jsTrim text)]
            ++ (speakRun (stopListening s).1 msg).2 ++ tail)
        ∧ VEvent.netSend (jsTrim text) ∈
          ((stopListening s).2
            ++ [VEvent.statusChanged "processing", VEvent.netSend (jsTrim text)]
            ++ (speakRun (stopListening s).1 msg).2 ++ tail)
        ∧ (s.isListening = true → s.hasRecognition = true →
            (speakRun (stopListening s).1 msg).1.silenceTimerArmed = false
            ∧ (s.engine = .running →
                VEvent.engineStopRequested ∈
                  ((stopListening s).2
                    ++ [VEvent.statusChanged "processing", VEvent.netSend (jsTrim text)]
                    ++ (speakRun (stopListening s).1 msg).2 ++ tail))) := by
      intro msg tail
      refine ⟨by simp, by simp, ?_⟩
      intro hl hhr
      refine ⟨?_, ?_⟩
      · rw [speakRun_timer]
        exact stopListening_timer s hl hhr
      · intro heng
        have hmem := stopListening_engineStopMem s hl hhr heng
        simp [hmem]
    rcases result with e | r
    · exact core _ _
    · rcases eq_or_ne r.text "" with hrt | hrt
      · simp only [hrt, ne_eq, not_true_eq_false, Bool.false_eq_true, if_false, ite_false]
        exact core _ _
      · simp only [ne_eq, hrt, not_false_eq_true, if_true, ite_true]
        exact core _ _

/-- C4 (witness): the rejected utterance "um" triggers no network send and
returns to `ready`, while the accepted utterance "hello there" reaches
`processing` and the network send. -/
theorem C4_witness :
    processFinalResult listenState "um" (.error "offline")
      = ((stopListening listenState).1,
         (stopListening listenState).2 ++ [.statusChanged "ready"])
    ∧ VEvent.netSend "um" ∉ (processFinalResult listenState "um" (.error "offline")).2
    ∧ isValidSpeech "hi" = false
    ∧ VEvent.statusChanged "processing"
        ∈ (processFinalResult listenState "hello there"
            (.ok ⟨"Email sent successfully!", .null⟩)).2 :=
  ⟨C4_theorem.1 listenState "um" (.error "offline") rfl,
   (C4_theorem.2.1 listenState "um" (.error "offline") "um" rfl).1,
   C4_theorem.2.2.2.1 "hi" (by decide),
   (C4_theorem.2.2.2.2 listenState "hello there"
     (.ok ⟨"Email sent successfully!", .null⟩) rfl).1⟩

/-- C6 (counterexample): the claim that a "no speech detected" error is never
surfaced in every variant of the error handler is false: the continuous
variant's handler surfaces it as a generic error message. -/
theorem C6_counterexample :
    VEvent.errorSurfaced ("Speech recognition error: " ++ "no-speech")
      ∈ (recErrorContinuous listenState "no-speech").2 := by
  decide

/-- C6 (amended): permission-denied and service-denied recognition errors are
surfaced as user-actionable messages by BOTH handler variants; the one-shot
handler never surfaces "no-speech" and only ends the listening attempt; but
the continuous handler does surface "no-speech" as a generic error message. -/
theorem C6_theorem :
    (∀ (s : VState) (err : String),
        err = "not-allowed" ∨ err = "service-not-allowed" →
        (recErrorContinuous s err).2
          = .errorSurfaced
              "Microphone permission denied. Please enable microphone access."
              :: (stopListening s).2
        ∧ (recErrorOneShot s err).2
          = .errorSurfaced
              "Microphone permission denied. Please enable microphone access and refresh the page."
              :: (stopListening s).2)
    ∧ (∀ s : VState,
        recErrorOneShot s "no-speech" = ((stopListening s).1, (stopListening s).2))
    ∧ (∀ (s : VState) (m : String),
        VEvent.errorSurfaced m ∉ (recErrorOneShot s "no-speech").2)
    ∧ (∀ s : VState,
        (recErrorContinuous s "no-speech").2
          = .errorSurfaced ("Speech recognition error: " ++ "no-speech")
              :: (stopListening s).2) := by
  refine ⟨?_, ?_, ?_, ?_⟩
  · intro s err h
    rcases h with rfl | rfl <;> constructor <;>
      simp [recErrorContinuous, recErrorOneShot]
  · intro s
    simp [recErrorOneShot]
  · intro s m
    have h : recErrorOneShot s "no-speech" = ((stopListening s).1, (stopListening s).2) := by
      simp [recErrorOneShot]
    rw [h]
    rcases stopListening_events s with he | he | he | he <;> rw [he] <;> simp
  · intro s
    simp [recErrorContinuous]

/-- C6 (witness): concrete permission-denied and no-speech events against the
two handlers. -/
theorem C6_witness :
    (recErrorOneShot initialVState "not-allowed").2
      = [.errorSurfaced
          "Microphone permission denied. Please enable microphone access and refresh the page."]
    ∧ recErrorOneShot listenState "no-speech"
      = ((stopListening listenState).1, (stopListening listenState).2) := by
  constructor
  · have h := (C6_theorem.1 initialVState "not-allowed" (Or.inl rfl)).2
    rw [h]
    rfl
  · exact C6_theorem.2.1 listenState

/-- C7 (counterexample): the claimed at-most-one-Exchange invariant is false:
from the initial state, a started session, an accepted final (Exchange 1 goes
in flight), the recognizer's end event, a user restart and a second accepted
final yield a reachable state with TWO Exchanges in flight, none resolved. -/
theorem C7_counterexample :
    (runTurn initialVState
      [.userStart, .engineStarted, .finalTranscript "what is the weather today",
       .engineEnded, .userStart, .engineStarted,
       .finalTranscript "send an email to John"]).pending = 2 := by
  rfl

/-- C7 (amended): the only refusal the controller implements is that
`startListening` is ignored while capture is active; once capture is off it
starts listening again regardless of how many Exchanges are pending (no
in-flight flag is consulted), and an accepted final while listening always
puts one more Exchange in flight. -/
theorem C7_theorem :
    (∀ s : VState, s.isListening = true → stepTurn s .userStart = s)
    ∧ (∀ s : VState, s.isListening = false → s.hasRecognition = true →
        stepTurn s .userStart = { s with engine := .running })
    ∧ (∀ (s : VState) (text : String), s.isListening = true →
        isValidSpeech text = true →
        (stepTurn s (.finalTranscript text)).pending = s.pending + 1) := by
  refine ⟨?_, ?_, ?_⟩
  · intro s h
    simp [stepTurn, h]
  · intro s h1 h2
    simp [stepTurn, h1, h2]
  · intro s text h1 h2
    simp [stepTurn, h1, h2, stopListening_pending]

/-- C7 (witness): concrete refusal while listening, restart with a pending
Exchange, and pending-count increment on an accepted final. -/
theorem C7_witness :
    stepTurn listenState .userStart = listenState
    ∧ stepTurn ⟨false, true, .inactive, false, false, false, false, 1⟩ .userStart
      = ⟨false, true, .running, false, false, false, false, 1⟩
    ∧ (stepTurn listenState (.finalTranscript "hello there")).pending
      = listenState.pending + 1 :=
  ⟨C7_theorem.1 listenState rfl,
   C7_theorem.2.1 ⟨false, true, .inactive, false, false, false, false, 1⟩ rfl rfl,
   C7_theorem.2.2 listenState "hello there" rfl rfl⟩

/-- C8: stopping capture when not listening is a strict no-op (no error, no
events, state unchanged); a second `stopListening` right after a first is a
strict no-op; a stop from an active listening state always leaves the silence
timer cleared; and `stopSpeaking` when already idle is a strict no-op, as is
a second `stopSpeaking` right after a first. -/
theorem C8_theorem :
    (∀ s : VState, s.isListening = false → stopListening s = (s, []))
    ∧ (∀ s : VState,
        stopListening (stopListening s).1 = ((stopListening s).1, []))
    ∧ (∀ s : VState, s.isListening = true → s.hasRecognition = true →
        (stopListening s).1.silenceTimerArmed = false)
    ∧ (∀ s : VState, s.synthSpeaking = false → s.isSpeaking = false →
        s.hasUtterance = false → stopSpeaking s = (s, []))
    ∧ (∀ s : VState,
        stopSpeaking (stopSpeaking s).1 = ((stopSpeaking s).1, [])) := by
  refine ⟨?_, ?_, ?_, ?_, ?_⟩
  · intro s h
    simp [stopListening, h]
  · intro s
    obtain ⟨l, hr, eng, st, sp, syn, hu, p⟩ := s
    cases l <;> cases hr <;> cases eng <;> cases st <;>
      simp [stopListening, engineStop]
  · exact stopListening_timer
  · intro s h1 h2 h3
    obtain ⟨l, hr, eng, st, sp, syn, hu, p⟩ := s
    simp only at h1 h2 h3
    subst h1; subst h2; subst h3
    simp [stopSpeaking]
  · intro s
    obtain ⟨l, hr, eng, st, sp, syn, hu, p⟩ := s
    cases syn <;> simp [stopSpeaking]

/-- C8 (witness): concrete no-op stops on the idle initial state and a timer
clear from a listening state. -/
theorem C8_witness :
    stopListening initialVState = (initialVState, [])
    ∧ (stopListening listenState).1.silenceTimerArmed = false
    ∧ stopSpeaking initialVState = (initialVState, []) :=
  ⟨C8_theorem.1 initialVState rfl,
   C8_theorem.2.2.1 listenState rfl rfl,
   C8_theorem.2.2.2.1 initialVState rfl rfl rfl⟩

end VoiceAssistant
